import Mathlib

/-!
Verification of the pubsub-api-client repository core: the replay position
codec, the change-event bitmap field resolver, the payload flattening pass
of the event decoding pipeline, and the per-stream message handler of the
subscription and flow-control engine.

Conventions of the embedding:
* JavaScript `Buffer` values are `List Nat` (one entry per byte, real buffers
  hold values in `0..255`).
* JavaScript strings manipulated character-wise by the source are `List Char`.
* JavaScript numbers reaching the validation code are `ℚ` (every float64
  value is rational; the validation only inspects integrality, magnitude and
  order, all of which are exact on the float values involved).
* Fallible JavaScript code (`throw`) is modelled with `Except String`.
-/

namespace PubSubClient

/-! ## Replay position codec (src `eventParser.ts`: `encodeReplayId` / `decodeReplayId`) -/

/-- Number of binary digits of `n`, computed with explicit fuel so that the
kernel can evaluate it.  64 units of fuel are exact for every `n < 2 ^ 64`,
which covers every value read out of an 8-byte buffer. -/
def bitlenAux : Nat → Nat → Nat
  | 0, _ => 0
  | fuel + 1, n => if n = 0 then 0 else bitlenAux fuel (n / 2) + 1

/-- Bit length of a natural number below `2 ^ 64`. -/
def bitlen (n : Nat) : Nat := bitlenAux 64 n

/-- Quotient `n / d` rounded to the nearest integer, ties going to the even
quotient.  This is the rounding mode of IEEE-754 float64 arithmetic. -/
def roundHalfEven (n d : Nat) : Nat :=
  let q := n / d
  let r := n % d
  if 2 * r < d then q
  else if d < 2 * r then q + 1
  else if q % 2 = 0 then q else q + 1

/-- Model of the JavaScript conversion `Number(bigint)` for non-negative
inputs: the result is the nearest float64 value, which is exact up to
`2 ^ 53` and rounds the 53-bit mantissa (ties to even) above it. -/
def numberFromBigInt (n : Nat) : Nat :=
  if n ≤ 2 ^ 53 then n
  else
    let k := bitlen n - 53
    roundHalfEven n (2 ^ k) * 2 ^ k

/-- Model of `Buffer.writeBigUInt64BE`: the eight big-endian bytes of a value
below `2 ^ 64`. -/
def writeBigUInt64BE (n : Nat) : List Nat :=
  [n / 2 ^ 56 % 256, n / 2 ^ 48 % 256, n / 2 ^ 40 % 256, n / 2 ^ 32 % 256,
   n / 2 ^ 24 % 256, n / 2 ^ 16 % 256, n / 2 ^ 8 % 256, n % 256]

/-- Big-endian value of a byte list. -/
def bytesToNatBE (bytes : List Nat) : Nat :=
  bytes.foldl (fun acc b => acc * 256 + b) 0

/-- Model of `buffer.readBigUInt64BE()` (offset 0): reads the first eight
bytes big-endian; throws `ERR_OUT_OF_RANGE` when fewer than eight bytes are
available.  A buffer longer than eight bytes is accepted and only its first
eight bytes are read. -/
def readBigUInt64BE (buf : List Nat) : Except String Nat :=
  if buf.length < 8 then .error "RangeError [ERR_OUT_OF_RANGE]"
  else .ok (bytesToNatBE (buf.take 8))

/-- Source `decodeReplayId(encodedReplayId)`:
`Number(encodedReplayId.readBigUInt64BE())`. -/
def decodeReplayId (encodedReplayId : List Nat) : Except String Nat :=
  (readBigUInt64BE encodedReplayId).map numberFromBigInt

/-- Source `encodeReplayId(replayId)`: `writeBigUInt64BE(BigInt(replayId))`
into a fresh 8-byte buffer; `writeBigUInt64BE` throws a `RangeError` when the
value does not fit in 64 unsigned bits. -/
def encodeReplayId (replayId : Nat) : Except String (List Nat) :=
  if replayId < 2 ^ 64 then .ok (writeBigUInt64BE replayId)
  else .error "RangeError [ERR_OUT_OF_RANGE]"

/-- True exactly when the modelled JavaScript call threw. -/
def threw {α : Type} : Except String α → Bool
  | .error _ => true
  | .ok _ => false

theorem bytesToNatBE_writeBigUInt64BE (n : Nat) (h : n < 2 ^ 64) :
    bytesToNatBE (writeBigUInt64BE n) = n := by
  simp only [bytesToNatBE, writeBigUInt64BE, List.foldl]
  norm_num
  omega

theorem numberFromBigInt_small (n : Nat) (h : n ≤ 2 ^ 53) :
    numberFromBigInt n = n := by
  unfold numberFromBigInt
  rw [if_pos h]

/-- C2 counterexample: the codec does not round-trip on all of `[0, 2 ^ 63)`.
At `x = 2 ^ 53 + 1` the decode side returns `Number(bigint)`, which rounds to
the nearest float64 value `2 ^ 53`, so `decode (encode x) ≠ x`. -/
theorem c2_roundtrip_counterexample :
    (encodeReplayId 9007199254740993).bind decodeReplayId = .ok 9007199254740992 ∧
    (9007199254740992 : Nat) ≠ 9007199254740993 :=
  ⟨rfl, by decide⟩

/-- C2 (amended): `decodeReplayId (encodeReplayId x) = x` for every
`x ≤ 2 ^ 53`, the range on which the float64 conversion in the decoder is
exact. -/
theorem c2_roundtrip (x : Nat) (h : x ≤ 2 ^ 53) :
    (encodeReplayId x).bind decodeReplayId = .ok x := by
  have hx : x < 2 ^ 64 := lt_of_le_of_lt h (by norm_num)
  have hlen : ¬ (writeBigUInt64BE x).length < 8 := by simp [writeBigUInt64BE]
  have htake : (writeBigUInt64BE x).take 8 = writeBigUInt64BE x := by
    simp [writeBigUInt64BE]
  simp only [encodeReplayId, if_pos hx, Except.bind, decodeReplayId,
    readBigUInt64BE, if_neg hlen, htake, Except.map,
    bytesToNatBE_writeBigUInt64BE x hx, numberFromBigInt_small x h]

/-- Witness for C2 (amended) at the concrete input `x = 3`. -/
theorem c2_roundtrip_witness : (encodeReplayId 3).bind decodeReplayId = .ok 3 :=
  c2_roundtrip 3 (by norm_num)

/-- C8 counterexample: `decodeReplayId` does not reject buffers longer than
8 bytes.  A 9-byte zero buffer decodes successfully to `0` even though its
length is not 8, contradicting the claim that every non-8-byte buffer fails. -/
theorem c8_decode_counterexample :
    decodeReplayId (List.replicate 9 0) = .ok 0 ∧
    (List.replicate 9 0).length ≠ 8 :=
  ⟨rfl, by decide⟩

/-- C8 (amended): `decodeReplayId` fails exactly on buffers shorter than
8 bytes; on any buffer of length at least 8 it succeeds and returns the
big-endian value of the first eight bytes converted through the float64
`Number` conversion (exact below `2 ^ 53`). -/
theorem c8_decode_length_behavior (buf : List Nat) :
    (buf.length < 8 → threw (decodeReplayId buf) = true) ∧
    (8 ≤ buf.length → decodeReplayId buf = .ok (numberFromBigInt (bytesToNatBE (buf.take 8)))) := by
  constructor
  · intro h
    simp [decodeReplayId, readBigUInt64BE, if_pos h, Except.map, threw]
  · intro h
    simp [decodeReplayId, readBigUInt64BE, if_neg (Nat.not_lt.mpr h), Except.map]

/-- Witness for C8 (amended): a 7-byte buffer fails, a 9-byte buffer decodes. -/
theorem c8_decode_length_behavior_witness :
    threw (decodeReplayId (List.replicate 7 0)) = true ∧
    decodeReplayId (List.replicate 9 0) =
      .ok (numberFromBigInt (bytesToNatBE ((List.replicate 9 0).take 8))) :=
  ⟨(c8_decode_length_behavior (List.replicate 7 0)).1 (by decide),
   (c8_decode_length_behavior (List.replicate 9 0)).2 (by decide)⟩

/-! ## Bitmap field resolver (src `eventParser.ts`: `hexToBin`,
`getFieldNamesFromBitmap`, `getChildFields`, `parseFieldBitmaps`) -/

/- Avro schema metadata shape used by the resolver: a field has a name
(the source reads it both as `_name` and via `getName()`, which agree) and
the list of branch types returned by `_type.getTypes()`. -/
mutual
inductive AvroField where
  | mk (name : String) (branches : List AvroType)

inductive AvroType where
  | record (fields : List AvroField)
  | nonRecord
end

def AvroField.name : AvroField → String
  | .mk n _ => n

def AvroField.branches : AvroField → List AvroType
  | .mk _ bs => bs

/-- Expansion of one character by the chain of global `replace` calls in the
source `hexToBin`.  The replacements run in ascending digit order and every
replacement output consists only of the already-processed characters `0` and
`1`, so the chain expands each original character independently: the sixteen
upper-case hexadecimal digits become their 4-bit binary form and every other
character (in particular a lower-case hex digit) is left unchanged. -/
def hexDigitToBin : Char → List Char
  | '0' => ['0', '0', '0', '0']
  | '1' => ['0', '0', '0', '1']
  | '2' => ['0', '0', '1', '0']
  | '3' => ['0', '0', '1', '1']
  | '4' => ['0', '1', '0', '0']
  | '5' => ['0', '1', '0', '1']
  | '6' => ['0', '1', '1', '0']
  | '7' => ['0', '1', '1', '1']
  | '8' => ['1', '0', '0', '0']
  | '9' => ['1', '0', '0', '1']
  | 'A' => ['1', '0', '1', '0']
  | 'B' => ['1', '0', '1', '1']
  | 'C' => ['1', '1', '0', '0']
  | 'D' => ['1', '1', '0', '1']
  | 'E' => ['1', '1', '1', '0']
  | 'F' => ['1', '1', '1', '1']
  | c => [c]

/-- Source `hexToBin(hex)`: drop the first two characters (`substring(2)`,
which assumes a `0x` prefix and strips two characters unconditionally), then
apply the replacement chain. -/
def hexToBin (hex : List Char) : List Char :=
  (hex.drop 2).flatMap hexDigitToBin

/-- Source `getFieldNamesFromBitmap(fields, fieldBitmapAsHex)`: convert hex
to binary, reverse the character order, then scan positions
`i < min (binValue.length) (fields.length)` and emit `fields[i].getName()`
for every position holding the character `1`. -/
def getFieldNamesFromBitmap (fields : List AvroField) (fieldBitmapAsHex : List Char) :
    List String :=
  let binValue := (hexToBin fieldBitmapAsHex).reverse
  (binValue.zip fields).filterMap fun cf => if cf.1 = '1' then some cf.2.name else none

/-- Source `getChildFields(parentField)`: concatenate `getFields()` of every
record-typed branch of the parent field's type. -/
def getChildFields (parentField : AvroField) : List AvroField :=
  parentField.branches.foldl
    (fun fields t =>
      match t with
      | .record fs => fields ++ fs
      | .nonRecord => fields)
    []

/-- Model of JavaScript `parseInt(s, 10)` on the strings this code splits
out of a bitmap entry: the leading run of decimal digits, `none` (`NaN`)
when there is no leading digit. -/
def parseIntDecimal (s : List Char) : Option Nat :=
  let digits := s.takeWhile (fun c => c.isDigit)
  if digits.isEmpty then none
  else some (digits.foldl (fun acc c => acc * 10 + (c.toNat - '0'.toNat)) 0)

/-- One `forEach` step of the compound-field loop in
`parseFieldBitmaps`: split the entry on `-`; entries with fewer than two
parts are ignored; otherwise index the parent field (`allFields[parseInt(..)]`
being `undefined` makes the subsequent `_type` access throw), resolve the
child bitmap against the child fields and append the child names prefixed
with the parent name and a dot. -/
def compoundStep (allFields : List AvroField) (fieldNames : List String)
    (fieldBitmapAsHex : List Char) : Except String (List String) :=
  let bitmapMapStrings := fieldBitmapAsHex.splitOn '-'
  if 2 ≤ bitmapMapStrings.length then
    match (parseIntDecimal (bitmapMapStrings.headD [])).bind allFields.get? with
    | none => .error "TypeError: Cannot read properties of undefined"
    | some parentField =>
      let childFields := getChildFields parentField
      let childFieldNames := getFieldNamesFromBitmap childFields (bitmapMapStrings.getD 1 [])
      .ok (fieldNames ++ childFieldNames.map fun fieldName => parentField.name ++ "." ++ fieldName)
  else .ok fieldNames

/-- Source `parseFieldBitmaps(allFields, fieldBitmapsAsHex)`: empty input
gives `[]`; a first entry starting with `0x` is resolved as the top-level
bitmap; when there is more than one entry and the last one contains `-`,
every entry is run through the compound-field step. -/
def parseFieldBitmaps (allFields : List AvroField) (fieldBitmapsAsHex : List (List Char)) :
    Except String (List String) :=
  match fieldBitmapsAsHex with
  | [] => .ok []
  | first :: rest =>
    let fieldNames :=
      if first.take 2 = ['0', 'x'] then getFieldNamesFromBitmap allFields first else []
    if rest.length + 1 > 1 ∧ '-' ∈ (first :: rest).getLastD [] then
      (first :: rest).foldlM (compoundStep allFields) fieldNames
    else .ok fieldNames

/-- C4 counterexample: in a field list whose index-1 field has exactly two
record-typed child fields, the compound entry `"1-03"` (child bitmap without
a `0x` prefix, exactly as the claim writes it) resolves to `[]`, not to
`["B.C0", "B.C1"]`: `hexToBin` strips two leading characters unconditionally,
so the unprefixed child bitmap `03` expands to the empty bit string. -/
theorem c4_compound_counterexample :
    parseFieldBitmaps [.mk "A" [], .mk "B" [.record [.mk "C0" [], .mk "C1" []]]]
      ["0x0".data, "1-03".data] = .ok [] ∧
    ([] : List String) ≠ ["B.C0", "B.C1"] :=
  ⟨rfl, by decide⟩

/-- C4 (amended): the compound entry must carry the hex prefix on its child
bitmap.  For every field list `[f0, parent]` where `parent` has exactly two
record-typed child fields, the entry `"1-0x03"` appended after a top-level
bitmap resolves to the two child field names prefixed with the parent name
and a dot, selecting child indices 0 and 1. -/
theorem c4_compound_bitmap (f0 : AvroField) (p n0 n1 : String) (bs0 bs1 : List AvroType) :
    parseFieldBitmaps [f0, .mk p [.record [.mk n0 bs0, .mk n1 bs1]]]
      ["0x0".data, "1-0x03".data] = .ok [p ++ "." ++ n0, p ++ "." ++ n1] :=
  rfl

/-- The sixteen upper-case hexadecimal digit characters. -/
def hexDigitsUpper : List Char :=
  ['0', '1', '2', '3', '4', '5', '6', '7', '8', '9', 'A', 'B', 'C', 'D', 'E', 'F']

/-- Modelled from the spec's words, for comparison with the source-derived
`getFieldNamesFromBitmap`: the 4-bit binary form of one hex digit
(the spec presumes genuine hex digits; other characters are out of scope and
map to the empty expansion here). -/
def specHexDigitBits : Char → List Char
  | '0' => ['0', '0', '0', '0']
  | '1' => ['0', '0', '0', '1']
  | '2' => ['0', '0', '1', '0']
  | '3' => ['0', '0', '1', '1']
  | '4' => ['0', '1', '0', '0']
  | '5' => ['0', '1', '0', '1']
  | '6' => ['0', '1', '1', '0']
  | '7' => ['0', '1', '1', '1']
  | '8' => ['1', '0', '0', '0']
  | '9' => ['1', '0', '0', '1']
  | 'A' => ['1', '0', '1', '0']
  | 'B' => ['1', '0', '1', '1']
  | 'C' => ['1', '1', '0', '0']
  | 'D' => ['1', '1', '0', '1']
  | 'E' => ['1', '1', '1', '0']
  | 'F' => ['1', '1', '1', '1']
  | _ => []

/-- Modelled from the spec's words (§4.3 step 2): convert each hex digit to
its 4-bit binary form, concatenate, reverse the bit order, then emit
`fields[i].name` for each bit position `i` set to `1`, ignoring positions
beyond the field list length. -/
def specTopLevelBitmapNames (fields : List AvroField) (hexDigits : List Char) : List String :=
  let scan := (hexDigits.flatMap specHexDigitBits).reverse
  (scan.zip fields).filterMap fun cf => if cf.1 = '1' then some cf.2.name else none

theorem hexDigitToBin_eq_spec (c : Char) (hc : c ∈ hexDigitsUpper) :
    hexDigitToBin c = specHexDigitBits c := by
  simp only [hexDigitsUpper] at hc
  fin_cases hc <;> rfl

/-- C5: for every ordered field list and every bitmap string that is the hex
prefix `0x` followed by upper-case hex digits, the source's top-level bitmap
resolution agrees with the spec's algorithm: expand each digit to its 4-bit
binary form, concatenate, reverse, and emit `fields[i].name` for every bit
position `i` holding `1`, ignoring positions beyond the field list. -/
theorem c5_top_level_bitmap (fields : List AvroField) (digits : List Char)
    (h : ∀ c ∈ digits, c ∈ hexDigitsUpper) :
    getFieldNamesFromBitmap fields (['0', 'x'] ++ digits) =
      specTopLevelBitmapNames fields digits := by
  have hmap : digits.flatMap hexDigitToBin = digits.flatMap specHexDigitBits := by
    induction digits with
    | nil => rfl
    | cons c cs ih =>
      simp only [List.flatMap_cons]
      rw [hexDigitToBin_eq_spec c (h c (by simp)),
        ih (fun d hd => h d (List.mem_cons_of_mem _ hd))]
  simp only [getFieldNamesFromBitmap, specTopLevelBitmapNames, hexToBin]
  have hdrop : (['0', 'x'] ++ digits).drop 2 = digits := rfl
  rw [hdrop, hmap]

/-- Witness for C5 at the spec's concrete example: fields `[A, B, C, D]` and
bitmap `0x05` resolve to exactly `["A", "C"]`. -/
theorem c5_top_level_bitmap_witness :
    getFieldNamesFromBitmap [.mk "A" [], .mk "B" [], .mk "C" [], .mk "D" []]
        (['0', 'x'] ++ "05".data) =
      specTopLevelBitmapNames [.mk "A" [], .mk "B" [], .mk "C" [], .mk "D" []] "05".data ∧
    specTopLevelBitmapNames [.mk "A" [], .mk "B" [], .mk "C" [], .mk "D" []] "05".data =
      ["A", "C"] :=
  ⟨c5_top_level_bitmap _ _ (by decide), by decide⟩

theorem no_ones_selects_nothing (l : List Char) (fields : List AvroField)
    (h : ∀ c ∈ l, c ≠ '1') :
    (l.zip fields).filterMap (fun cf => if cf.1 = '1' then some cf.2.name else none) = [] := by
  induction l generalizing fields with
  | nil => rfl
  | cons c cs ih =>
    cases fields with
    | nil => rfl
    | cons f fs =>
      simp only [List.zip_cons_cons, List.filterMap_cons]
      rw [if_neg (by simpa using h c (by simp))]
      exact ih fs (fun d hd => h d (List.mem_cons_of_mem _ hd))

/-- C10: the bitmap resolution handles only upper-case hex digits.  The
replacement chain leaves every lower-case hex digit `a`..`f` unexpanded
(it maps to itself), and an unexpanded character never selects a field, so a
bitmap whose characters after the two-character prefix are all lower-case
hex digits resolves to no field names at all. -/
theorem c10_lowercase_hex_digits :
    (∀ c : Char, 'a' ≤ c → c ≤ 'f' → hexDigitToBin c = [c]) ∧
    (∀ (fields : List AvroField) (hex : List Char),
      (∀ ch ∈ hex.drop 2, 'a' ≤ ch ∧ ch ≤ 'f') →
      getFieldNamesFromBitmap fields hex = []) := by
  have hself : ∀ c : Char, 'a' ≤ c → c ≤ 'f' → hexDigitToBin c = [c] := by
    intro c h1 h2
    rw [hexDigitToBin.eq_def]
    split
    all_goals first
      | rfl
      | exact absurd h1 (by decide)
  refine ⟨hself, ?_⟩
  have hexpandAll : ∀ (l : List Char), (∀ ch ∈ l, 'a' ≤ ch ∧ ch ≤ 'f') →
      l.flatMap hexDigitToBin = l := by
    intro l
    induction l with
    | nil => intro _; rfl
    | cons c cs ih =>
      intro hl
      simp only [List.flatMap_cons]
      rw [hself c (hl c (by simp)).1 (hl c (by simp)).2,
        ih (fun d hd => hl d (List.mem_cons_of_mem _ hd))]
      rfl
  intro fields hex h
  simp only [getFieldNamesFromBitmap, hexToBin, hexpandAll (hex.drop 2) h]
  refine no_ones_selects_nothing _ _ ?_
  intro c hc heq
  have hmem : c ∈ hex.drop 2 := List.mem_reverse.mp hc
  have := (h c hmem).1
  subst heq
  exact absurd this (by decide)

/-- Witness for C10: the digit `a` is left unexpanded, and the all-lowercase
bitmap `0xab` selects no field from a non-empty field list. -/
theorem c10_lowercase_hex_digits_witness :
    hexDigitToBin 'a' = ['a'] ∧
    getFieldNamesFromBitmap [.mk "A" []] "0xab".data = [] :=
  ⟨c10_lowercase_hex_digits.1 'a' (by decide) (by decide),
   c10_lowercase_hex_digits.2 [.mk "A" []] "0xab".data (by decide)⟩

/-! ## Payload flattening (src `eventParser.ts`: `flattenSinglePropertyObjects`) -/

/-- Decoded payload values, mirroring the source's `NestedObject` type:
`{ [key: string]: NestedObject | string | number | boolean | null }`. -/
inductive JVal where
  | str (s : String)
  | num (n : Int)
  | bool (b : Bool)
  | null
  | obj (entries : List (String × JVal))

mutual
/-- Source `flattenSinglePropertyObjects(theObject)`: iterate over the
entries of an object (the source is only ever handed objects; other values
are returned unchanged here). -/
def flattenSinglePropertyObjects : JVal → JVal
  | .obj entries => .obj (flattenEntries entries)
  | v => v

/-- One pass of the source's `Object.entries(theObject).forEach`: an entry
whose key is not `ChangeEventHeader` and whose value is a non-null object
with exactly one key is replaced by its sole inner value, and when that
inner value is itself a non-null object the same pass runs on the inner
value's entries (the replacement is not re-examined as a single-key wrapper
at the outer key).  All other entries — including object values with two or
more keys — are kept as they are.  The in-place mutation of the source is
equivalent to this entrywise rebuild because `Object.entries` is snapshotted
before the loop and each assignment only rewrites the current key. -/
def flattenEntries : List (String × JVal) → List (String × JVal)
  | [] => []
  | (key, value) :: rest =>
    let newValue :=
      if key = "ChangeEventHeader" then value
      else
        match value with
        | .obj [(_s, .obj subEntries)] => .obj (flattenEntries subEntries)
        | .obj [(_s, subValue)] => subValue
        | _ => value
    (key, newValue) :: flattenEntries rest
end

/-- C3 counterexample: a doubly nested single-key wrapper is not fully
flattened.  The pass replaces `Name`'s value with the inner wrapper and then
rescans the replacement's entries; the replacement itself is never
re-examined as a wrapper at the key `Name`, so
`{ Name: { string: { string: "Acme" } } }` flattens to
`{ Name: { string: "Acme" } }` and not to `{ Name: "Acme" }`. -/
theorem c3_flatten_counterexample :
    flattenSinglePropertyObjects
        (.obj [("Name", .obj [("string", .obj [("string", .str "Acme")])])])
      ≠ .obj [("Name", .str "Acme")] := by
  simp [flattenSinglePropertyObjects, flattenEntries]

/-- C3 (amended): flattening replaces each entry (outside the
change-tracking header) whose value is a single-key object by its sole inner
value, recursing into the entries of the replacement but never re-examining
the replacement itself at the outer key: `{ Name: { string: "Acme" } }`
becomes `{ Name: "Acme" }`, a doubly nested single-key wrapper loses exactly
its outermost layer, and an entry keyed `ChangeEventHeader` is always kept
verbatim, even when its value is a single-key object. -/
theorem c3_flatten_single_property_objects :
    flattenSinglePropertyObjects (.obj [("Name", .obj [("string", .str "Acme")])])
      = .obj [("Name", .str "Acme")] ∧
    flattenSinglePropertyObjects
        (.obj [("Name", .obj [("string", .obj [("string", .str "Acme")])])])
      = .obj [("Name", .obj [("string", .str "Acme")])] ∧
    (∀ (v : JVal) (rest : List (String × JVal)),
      flattenEntries (("ChangeEventHeader", v) :: rest)
        = ("ChangeEventHeader", v) :: flattenEntries rest) := by
  refine ⟨by simp [flattenSinglePropertyObjects, flattenEntries],
    by simp [flattenSinglePropertyObjects, flattenEntries], ?_⟩
  intro v rest
  rw [flattenEntries.eq_def]
  simp

/-! ## Subscription and flow-control engine (src `client.ts`: `#subscribe`
data handler, `requestAdditionalEvents`, `MAX_EVENT_BATCH_SIZE`) -/

/-- Source constant `MAX_EVENT_BATCH_SIZE` (client.ts line 53). -/
def MAX_EVENT_BATCH_SIZE : Nat := 100

/-- Decidable equality for modelled fallible results. -/
instance {e a : Type} [DecidableEq e] [DecidableEq a] : DecidableEq (Except e a) := fun x y =>
  match x, y with
  | .ok v, .ok w => if h : v = w then .isTrue (by rw [h]) else .isFalse (by simp [h])
  | .error v, .error w => if h : v = w then .isTrue (by rw [h]) else .isFalse (by simp [h])
  | .ok _, .error _ => .isFalse (by simp)
  | .error _, .ok _ => .isFalse (by simp)

/-- A raw event inside a stream message: its wire replay-id buffer and the
outcome of resolving its schema and running `parseEvent` on it.  Schema
resolution and the Avro payload decode are injected boundary capabilities
(spec §6), so their combined outcome is carried by the event: `.ok` holds an
opaque handle for the parsed event, `.error` the thrown cause. -/
structure RawEvent where
  replayId : List Nat
  parseResult : Except String Nat
  deriving DecidableEq

/-- A message delivered on the gRPC stream: the wire buffer of
`latestReplayId` and the `events` field, which is either absent
(`undefined`, modelled `none`) or an array (possibly empty, `some`). -/
structure StreamMessage where
  latestReplayId : List Nat
  events : Option (List RawEvent)
  deriving DecidableEq

/-- Modelled from the spec: the counters of the per-subscription
`PubSubEventEmitter` (its source `src/utils/pubSubEventEmitter.js` is not
among the repository sources; spec §3 "Per-Topic Subscription State" and
§4.5 define requested-count and received-count). -/
structure EmitterState where
  requestedEventCount : Nat
  receivedEventCount : Nat
  deriving DecidableEq

/-- Modelled from the spec: "After each event, increment the received
counter" (§4.5). -/
def EmitterState.incrementReceived (st : EmitterState) : EmitterState :=
  { st with receivedEventCount := st.receivedEventCount + 1 }

/-- Modelled from the spec: `_resetEventCount` of the event emitter "resets
the event source's received counter to zero and its requested counter to
`count`" (§4.5, `requestAdditionalEvents`). -/
def EmitterState.resetEventCount (_st : EmitterState) (newRequested : Nat) : EmitterState :=
  { requestedEventCount := newRequested, receivedEventCount := 0 }

/-- The record stored by the `EventParseError` constructor
(src/utils/eventParseError.ts lines 48-60): message, cause, best-effort
replay ID, raw event, and the batch's latest replay ID. -/
structure EventParseErrorRec where
  message : String
  cause : String
  replayId : Option Nat
  event : RawEvent
  latestReplayId : Nat
  deriving DecidableEq

/-- The keepalive payload: the stream message with `latestReplayId` replaced
by its decoded value (`data.latestReplayId = latestReplayId` in the source). -/
structure DecodedKeepalive where
  latestReplayId : Nat
  events : Option (List RawEvent)
  deriving DecidableEq

/-- Signals emitted on the per-subscription event emitter by the data
handler. -/
inductive Signal where
  | data (parsedEvent : Nat)
  | error (e : EventParseErrorRec)
  | keepalive (message : DecodedKeepalive)
  | lastevent
  deriving DecidableEq

/-- A message written back onto the gRPC stream
(`subscription.write({ topicName, numRequested })`). -/
structure FetchRequest where
  topicName : String
  numRequested : Nat
  deriving DecidableEq

/-- Source `requestAdditionalEvents(eventEmitter, numRequested)`
(client.ts lines 437-457): fails when the topic has no active subscription;
otherwise resets the emitter counters and writes a new batch request. -/
def requestAdditionalEvents (hasSubscription : Bool) (topicName : String)
    (st : EmitterState) (numRequested : Nat) :
    Except String (EmitterState × FetchRequest) :=
  if hasSubscription then
    .ok (st.resetEventCount numRequested, ⟨topicName, numRequested⟩)
  else
    .error ("Failed to request additional events for topic " ++ topicName ++
      ", no active subscription found.")

/-- Best-effort decode of an event's replay ID in the catch block of the
data handler: the decoded value, or `none` when `decodeReplayId` throws. -/
def bestEffortReplayId (ev : RawEvent) : Option Nat :=
  (decodeReplayId ev.replayId).toOption

/-- The error message built in the catch block: JavaScript tests `replayId ?`
for truthiness, so both an undecodable replay ID and the decoded value `0`
select the "unknown replay ID" message. -/
def parseErrorMessage (replayId : Option Nat) (latestReplayId : Nat) : String :=
  match replayId with
  | some r =>
    if r ≠ 0 then "Failed to parse event with replay ID " ++ Nat.repr r
    else "Failed to parse event with unknown replay ID (latest replay ID was " ++
      Nat.repr latestReplayId ++ ")"
  | none => "Failed to parse event with unknown replay ID (latest replay ID was " ++
      Nat.repr latestReplayId ++ ")"

/-- The `new EventParseError(message, error, replayId, event, latestReplayId)`
record built in the catch block of the data handler. -/
def mkEventParseError (cause : String) (ev : RawEvent) (latestReplayId : Nat) :
    EventParseErrorRec :=
  let replayId := bestEffortReplayId ev
  { message := parseErrorMessage replayId latestReplayId
    cause := cause
    replayId := replayId
    event := ev
    latestReplayId := latestReplayId }

/-- The try/catch body of the per-event loop: a successful parse emits
`data` with the parsed event, a failure emits `error` with the
`EventParseError` record. -/
def perEventSignal (latestReplayId : Nat) (ev : RawEvent) : Signal :=
  match ev.parseResult with
  | .ok parsed => .data parsed
  | .error cause => .error (mkEventParseError cause ev latestReplayId)

/-- One iteration of `for (const event of data.events)` in the data handler
(client.ts lines 344-395): emit the per-event signal, count the event
(counting is spec-modelled, see `EmitterState.incrementReceived`), and when
the received count reaches the requested count either request a fresh
maximum-size batch (unbounded subscriptions; a failure of that call rejects
an unawaited promise, emitting and writing nothing) or emit `lastevent`
(bounded subscriptions). -/
def handleOneEvent (isInfiniteEventRequest hasSubscription : Bool) (topicName : String)
    (latestReplayId : Nat) (st : EmitterState) (ev : RawEvent) :
    EmitterState × List Signal × List FetchRequest :=
  let sig := perEventSignal latestReplayId ev
  let st1 := st.incrementReceived
  if st1.receivedEventCount = st1.requestedEventCount then
    if isInfiniteEventRequest then
      match requestAdditionalEvents hasSubscription topicName st1 MAX_EVENT_BATCH_SIZE with
      | .ok (st2, w) => (st2, [sig], [w])
      | .error _ => (st1, [sig], [])
    else (st1, [sig, .lastevent], [])
  else (st1, [sig], [])

/-- The whole per-event loop of the data handler, threading the emitter
counters and collecting emitted signals and written batch requests in
order. -/
def processEvents (isInfiniteEventRequest hasSubscription : Bool) (topicName : String)
    (latestReplayId : Nat) :
    EmitterState → List RawEvent → EmitterState × List Signal × List FetchRequest
  | st, [] => (st, [], [])
  | st, ev :: rest =>
    let r1 := handleOneEvent isInfiniteEventRequest hasSubscription topicName
      latestReplayId st ev
    let r2 := processEvents isInfiniteEventRequest hasSubscription topicName
      latestReplayId r1.1 rest
    (r2.1, r1.2.1 ++ r2.2.1, r1.2.2 ++ r2.2.2)

/-- The `subscription.on("data", ...)` handler (client.ts lines 338-405):
decode the message's latest replay ID (a throw here rejects the handler and
nothing is emitted); a truthy `events` field (any array, even empty) enters
the per-event loop; a missing `events` field emits one `keepalive` carrying
the message with its decoded latest replay ID. -/
def onStreamData (isInfiniteEventRequest hasSubscription : Bool) (topicName : String)
    (st : EmitterState) (data : StreamMessage) :
    Except String (EmitterState × List Signal × List FetchRequest) :=
  match decodeReplayId data.latestReplayId with
  | .error e => .error e
  | .ok latestReplayId =>
    match data.events with
    | some events =>
      .ok (processEvents isInfiniteEventRequest hasSubscription topicName
        latestReplayId st events)
    | none => .ok (st, [.keepalive ⟨latestReplayId, none⟩], [])

set_option maxRecDepth 4000 in
/-- C1: flow control at the moment the received count reaches the requested
count.  Bounded mode (`requestedCount = 3`, three successfully parsed events
in one message): exactly one `lastevent` signal after the three `data`
signals and no batch request is written.  Unbounded mode (tracked as
`requestedCount = MAX_EVENT_BATCH_SIZE`, 100 events delivered): no
`lastevent`, exactly one new 100-event batch request is written and the
received counter is reset to 0. -/
theorem c1_flow_control (topic : String) (p1 p2 p3 : Nat) (r1 r2 r3 : List Nat) :
    onStreamData false true topic ⟨3, 0⟩
        ⟨writeBigUInt64BE 5, some [⟨r1, .ok p1⟩, ⟨r2, .ok p2⟩, ⟨r3, .ok p3⟩]⟩
      = .ok (⟨3, 3⟩, [.data p1, .data p2, .data p3, .lastevent], []) ∧
    onStreamData true true "T" ⟨MAX_EVENT_BATCH_SIZE, 0⟩
        ⟨writeBigUInt64BE 7, some ((List.range 100).map fun i => ⟨[], .ok i⟩)⟩
      = .ok (⟨MAX_EVENT_BATCH_SIZE, 0⟩, (List.range 100).map Signal.data,
          [⟨"T", MAX_EVENT_BATCH_SIZE⟩]) :=
  ⟨rfl, by decide⟩

/-- C6 counterexample: a message that carries zero events in a present but
empty `events` array is not treated as a keepalive.  JavaScript's truthiness
check `if (data.events)` is true for `[]`, so the handler enters the event
loop, iterates zero times, and emits no signal at all — in particular no
`keepalive`. -/
theorem c6_keepalive_counterexample :
    onStreamData false true "T" ⟨3, 0⟩ ⟨writeBigUInt64BE 5, some []⟩
      = .ok (⟨3, 0⟩, [], []) ∧
    (∀ m : DecodedKeepalive, Signal.keepalive m ∉ ([] : List Signal)) :=
  ⟨rfl, by simp⟩

/-- C6 (amended): a message whose `events` field is absent emits exactly one
`keepalive` signal carrying the message with its latest replay ID replaced
by the decoded position, and no `data` signal; a message with a present but
empty `events` array emits no signal at all. -/
theorem c6_keepalive (isInfiniteEventRequest hasSubscription : Bool) (topic : String)
    (st : EmitterState) (buf : List Nat) (latest : Nat)
    (h : decodeReplayId buf = .ok latest) :
    onStreamData isInfiniteEventRequest hasSubscription topic st ⟨buf, none⟩
      = .ok (st, [.keepalive ⟨latest, none⟩], []) ∧
    onStreamData isInfiniteEventRequest hasSubscription topic st ⟨buf, some []⟩
      = .ok (st, [], []) := by
  constructor <;> simp [onStreamData, h, processEvents]

/-- Witness for C6 (amended) on a concrete valid 8-byte buffer. -/
theorem c6_keepalive_witness :
    onStreamData true true "T" ⟨100, 0⟩ ⟨writeBigUInt64BE 5, none⟩
      = .ok (⟨100, 0⟩, [.keepalive ⟨5, none⟩], []) ∧
    onStreamData true true "T" ⟨100, 0⟩ ⟨writeBigUInt64BE 5, some []⟩
      = .ok (⟨100, 0⟩, [], []) :=
  c6_keepalive true true "T" ⟨100, 0⟩ (writeBigUInt64BE 5) 5 rfl

/-- Selects the signals the per-event loop emits for individual events
(`data` and `error`), as opposed to flow-control signals. -/
def isPerEventSignal : Signal → Bool
  | .data _ => true
  | .error _ => true
  | .keepalive _ => false
  | .lastevent => false

theorem isPerEventSignal_perEventSignal (latest : Nat) (ev : RawEvent) :
    isPerEventSignal (perEventSignal latest ev) = true := by
  unfold perEventSignal
  split <;> rfl

theorem isPerEventSignal_lastevent : isPerEventSignal .lastevent = false := rfl

theorem handleOneEvent_filter (isInf hasSub : Bool) (topic : String) (latest : Nat)
    (st : EmitterState) (ev : RawEvent) :
    (handleOneEvent isInf hasSub topic latest st ev).2.1.filter isPerEventSignal
      = [perEventSignal latest ev] := by
  simp only [handleOneEvent]
  split
  · split
    · split <;>
        simp [List.filter_cons, isPerEventSignal_perEventSignal, isPerEventSignal_lastevent]
    · simp [List.filter_cons, isPerEventSignal_perEventSignal, isPerEventSignal_lastevent]
  · simp [List.filter_cons, isPerEventSignal_perEventSignal, isPerEventSignal_lastevent]

/-- C7: a per-event decode failure never aborts the batch, and its error
record carries the diagnostics.  For every batch, the per-event signals
(`data`/`error`) emitted by the loop are exactly one signal per event of the
batch, in order, so the events after a failing one are still processed; and
the `error` signal of a failing event is the `EventParseError` record
carrying the best-effort replay position, the raw event, and the batch's
latest replay position. -/
theorem c7_decode_error_isolation (isInf hasSub : Bool) (topic : String)
    (latest : Nat) (st : EmitterState) (events : List RawEvent) :
    ((processEvents isInf hasSub topic latest st events).2.1.filter isPerEventSignal
        = events.map (perEventSignal latest)) ∧
    (∀ (cause : String) (ev : RawEvent), ev.parseResult = .error cause →
      perEventSignal latest ev = .error (mkEventParseError cause ev latest) ∧
      (mkEventParseError cause ev latest).replayId = bestEffortReplayId ev ∧
      (mkEventParseError cause ev latest).event = ev ∧
      (mkEventParseError cause ev latest).latestReplayId = latest) := by
  constructor
  · induction events generalizing st with
    | nil => rfl
    | cons ev rest ih =>
      simp only [processEvents, List.filter_append, List.map_cons,
        handleOneEvent_filter, ih]
      simp
  · intro cause ev h
    refine ⟨?_, rfl, rfl, rfl⟩
    simp [perEventSignal, h]

/-- Witness for C7 on a concrete three-event batch whose middle event fails
to parse. -/
theorem c7_decode_error_isolation_witness :
    ((processEvents false true "T" 5 ⟨3, 0⟩
        [⟨[], .ok 1⟩, ⟨writeBigUInt64BE 9, .error "boom"⟩, ⟨[], .ok 2⟩]).2.1.filter
          isPerEventSignal
      = [⟨([] : List Nat), .ok 1⟩, ⟨writeBigUInt64BE 9, .error "boom"⟩,
          ⟨([] : List Nat), .ok 2⟩].map (perEventSignal 5)) ∧
    perEventSignal 5 ⟨writeBigUInt64BE 9, .error "boom"⟩
      = .error (mkEventParseError "boom" ⟨writeBigUInt64BE 9, .error "boom"⟩ 5) ∧
    (mkEventParseError "boom" ⟨writeBigUInt64BE 9, .error "boom"⟩ 5).replayId
      = bestEffortReplayId ⟨writeBigUInt64BE 9, .error "boom"⟩ ∧
    (mkEventParseError "boom" ⟨writeBigUInt64BE 9, .error "boom"⟩ 5).event
      = ⟨writeBigUInt64BE 9, .error "boom"⟩ ∧
    (mkEventParseError "boom" ⟨writeBigUInt64BE 9, .error "boom"⟩ 5).latestReplayId = 5 :=
  ⟨(c7_decode_error_isolation false true "T" 5 ⟨3, 0⟩ _).1,
   (c7_decode_error_isolation false true "T" 5 ⟨3, 0⟩ []).2 "boom"
     ⟨writeBigUInt64BE 9, .error "boom"⟩ rfl⟩

/-- A JavaScript value passed as `numRequested`.  Number payloads are exact
rationals (every float64 value is rational; the validation only inspects
integrality, magnitude and order).  `other` carries the `typeof` name of any
non-number, non-null value. -/
inductive JsValue where
  | null
  | undefined
  | num (value : ℚ)
  | other (typeofName : String)

/-- Model of `Number.isSafeInteger`: an integral value of magnitude at most
`2 ^ 53 - 1`. -/
def isSafeInteger (q : ℚ) : Bool :=
  decide (q.den = 1 ∧ q.num.natAbs ≤ 2 ^ 53 - 1)

/-- Outcome of the `#subscribe` argument validation: the unbounded flag, the
requested count actually tracked, and whether the over-batch-size warning
was logged. -/
structure SubscribeSetup where
  isInfiniteEventRequest : Bool
  numRequested : Nat
  warned : Bool
  deriving DecidableEq

/-- Source `#subscribe` validation of `numRequested` (client.ts lines
289-318): `null`/`undefined` select unbounded mode tracked as
`MAX_EVENT_BATCH_SIZE`; a non-number throws; a non-safe-integer or a value
below 1 throws; a value above `MAX_EVENT_BATCH_SIZE` is accepted with a
logged warning.  (The source interpolates the offending value into the
error messages; the messages here keep only the fixed text.) -/
def validateNumRequested : JsValue → Except String SubscribeSetup
  | .null => .ok ⟨true, MAX_EVENT_BATCH_SIZE, false⟩
  | .undefined => .ok ⟨true, MAX_EVENT_BATCH_SIZE, false⟩
  | .other typeofName =>
    .error ("Expected a number type for number of requested events but got " ++ typeofName)
  | .num q =>
    if isSafeInteger q = false ∨ q < 1 then
      .error "Expected an integer greater than 1 for number of requested events"
    else
      .ok ⟨false, q.num.toNat, decide ((MAX_EVENT_BATCH_SIZE : ℚ) < q)⟩

/-- C9 counterexample: the claim "every integer from 1 up is accepted" fails
at `2 ^ 53`: it is an integer not below 1 and exactly representable as a
float64 value, yet `Number.isSafeInteger` rejects it, so the call throws. -/
theorem c9_validation_counterexample :
    threw (validateNumRequested (.num 9007199254740992)) = true ∧
    (9007199254740992 : ℚ).den = 1 ∧ (1 : ℚ) ≤ 9007199254740992 :=
  ⟨by decide, by decide, by decide⟩

/-- C9 (amended): `null`/`undefined` select unbounded mode tracked as the
maximum batch size 100; non-numbers throw; non-integers throw; values below
1 throw; integers above `2 ^ 53 - 1` throw (they are not safe integers);
and every integer `1 ≤ n ≤ 2 ^ 53 - 1` is accepted, with the warning flag
set exactly when `n` exceeds 100. -/
theorem c9_validation (q : ℚ) (t : String) :
    validateNumRequested .null = .ok ⟨true, MAX_EVENT_BATCH_SIZE, false⟩ ∧
    validateNumRequested .undefined = .ok ⟨true, MAX_EVENT_BATCH_SIZE, false⟩ ∧
    threw (validateNumRequested (.other t)) = true ∧
    (q.den ≠ 1 → threw (validateNumRequested (.num q)) = true) ∧
    (q < 1 → threw (validateNumRequested (.num q)) = true) ∧
    (∀ n : Nat, 2 ^ 53 - 1 < n → threw (validateNumRequested (.num (n : ℚ))) = true) ∧
    (∀ n : Nat, 1 ≤ n → n ≤ 2 ^ 53 - 1 →
      validateNumRequested (.num (n : ℚ)) = .ok ⟨false, n, decide (100 < n)⟩) := by
  refine ⟨rfl, rfl, rfl, ?_, ?_, ?_, ?_⟩
  · intro h
    have hsafe : isSafeInteger q = false := by
      simp [isSafeInteger, h]
    simp [validateNumRequested, hsafe, threw]
  · intro h
    simp [validateNumRequested, h, threw]
  · intro n h
    have hsafe : isSafeInteger (n : ℚ) = false := by
      simp [isSafeInteger, Rat.den_natCast, Rat.num_natCast]
      omega
    simp [validateNumRequested, hsafe, threw]
  · intro n h1 h2
    have hsafe : isSafeInteger (n : ℚ) = true := by
      simp [isSafeInteger, Rat.den_natCast, Rat.num_natCast]
      omega
    have hge : ¬ ((n : ℚ) < 1) := by
      rw [show (1 : ℚ) = ((1 : Nat) : ℚ) by norm_num, Nat.cast_lt]
      omega
    have hcond : ¬ (isSafeInteger (n : ℚ) = false ∨ (n : ℚ) < 1) := by
      simp [hsafe, hge]
    have hwarn : ((MAX_EVENT_BATCH_SIZE : ℚ) < (n : ℚ)) ↔ (100 < n) := by
      rw [show ((MAX_EVENT_BATCH_SIZE : Nat) : ℚ) = ((100 : Nat) : ℚ) by
          norm_num [MAX_EVENT_BATCH_SIZE],
        Nat.cast_lt]
    simp only [validateNumRequested, if_neg hcond, Rat.num_natCast, Int.toNat_natCast,
      decide_eq_decide.mpr hwarn]

/-- Witness for C9 (amended): a non-integer, zero, a non-number, an integer
beyond the safe range, and the accepted value 5. -/
theorem c9_validation_witness :
    threw (validateNumRequested (.num (mkRat 3 2))) = true ∧
    threw (validateNumRequested (.num 0)) = true ∧
    threw (validateNumRequested (.other "string")) = true ∧
    threw (validateNumRequested (.num ((9007199254740993 : Nat) : ℚ))) = true ∧
    validateNumRequested (.num ((5 : Nat) : ℚ)) = .ok ⟨false, 5, decide (100 < 5)⟩ :=
  ⟨(c9_validation (mkRat 3 2) "s").2.2.2.1 (by decide),
   (c9_validation 0 "s").2.2.2.2.1 (by decide),
   (c9_validation 0 "string").2.2.1,
   (c9_validation 0 "s").2.2.2.2.2.1 9007199254740993 (by norm_num),
   (c9_validation 0 "s").2.2.2.2.2.2 5 (by norm_num) (by norm_num)⟩

